import Mathlib

/-!
Verification of the kinematic transform-composition and animation engine of
`Proyecto_Borrador` (files `second.py` and `Buck_Up/Posicion_Inicail.py`).

The source builds 4×4 homogeneous matrices with `create_translation_matrix`
and `create_rotation_matrix`, composes them with the matrix product `@`,
resolves the seven-part dump-truck chain in the dictionary
`transformaciones`, and animates the container and its lid in `mover_cubo`.
Matrices are embedded as `Matrix (Fin 4) (Fin 4) ℝ`; the animation loop of
`mover_cubo` is embedded as a list of per-step frames inside `Except`
(Python's `ZeroDivisionError` on `t = paso / (n_pasos - 1)` becomes the
error case); the mutable mesh objects handled by `deepcopy` and
`Mesh.transform` are embedded as an explicit heap of geometry values.
-/

namespace Proyecto

/-- Homogeneous 4×4 transform matrices over the reals (`np.identity(4)` shape). -/
abbrev M4 := Matrix (Fin 4) (Fin 4) ℝ

/-- Embedding of `create_translation_matrix(tx, ty, tz)` (second.py lines 21-25):
an identity matrix whose entries `[0:3, 3]` are set to `tx, ty, tz`. -/
def create_translation_matrix (tx ty tz : ℝ) : M4 :=
  !![1, 0, 0, tx;
     0, 1, 0, ty;
     0, 0, 1, tz;
     0, 0, 0, 1]

/-- Embedding of `create_rotation_matrix(axis, angle)` (second.py lines 27-37):
starting from `np.identity(4)`, the 2×2 block of the named principal axis is
overwritten with cosines and sines; any axis other than `"x"`, `"y"`, `"z"`
leaves the identity untouched. -/
noncomputable def create_rotation_matrix (axis : String) (angle : ℝ) : M4 :=
  let c := Real.cos angle
  let s := Real.sin angle
  if axis = "x" then
    !![1, 0, 0, 0;
       0, c, -s, 0;
       0, s, c, 0;
       0, 0, 0, 1]
  else if axis = "y" then
    !![c, 0, s, 0;
       0, 1, 0, 0;
       -s, 0, c, 0;
       0, 0, 0, 1]
  else if axis = "z" then
    !![c, -s, 0, 0;
       s, c, 0, 0;
       0, 0, 1, 0;
       0, 0, 0, 1]
  else
    1

/-- Composition in the spec's sense: `compose(A, B) = B · A` (apply `A` first,
then `B`).  In the source this is the matrix product written `B @ A`, e.g.
`matriz_traslacion @ matriz_rotacion` composes the rotation first. -/
noncomputable def compose (A B : M4) : M4 := B * A

/-- Application of a homogeneous transform to a 3D point: `T · [p; 1]` with the
last coordinate dropped.  This is what `numpy-stl`'s `Mesh.transform` does to
every vertex (rotate by `T[0:3, 0:3]`, then translate by `T[0:3, 3]`). -/
def apply_transform (T : M4) (p : Fin 3 → ℝ) : Fin 3 → ℝ := fun i =>
  T i.castSucc 0 * p 0 + T i.castSucc 1 * p 1 + T i.castSucc 2 * p 2 + T i.castSucc 3

/-- Embedding of `np.radians`: degrees to radians. -/
noncomputable def radians (d : ℝ) : ℝ := d * Real.pi / 180


/-- Names of the seven rigid parts of the dump-truck assembly, the keys of the
dictionaries `piezas`, `posiciones` and `transformaciones` in `__main__`. -/
inductive Pieza
  | camion
  | empujador
  | deslizadera
  | brazo1
  | brazo2
  | contenedor
  | tapa
deriving DecidableEq

/-- Embedding of the dictionary `posiciones` (second.py lines 112-120): the
authored relative placement of each part. -/
noncomputable def posiciones : Pieza → M4
  | .camion => create_translation_matrix 0.0 0.0 0.0
  | .empujador => create_translation_matrix (-0.075283) 0.73129 (-0.19924)
  | .deslizadera => create_translation_matrix (-0.2416) 2.2309 0.19993
  | .brazo1 => create_translation_matrix 0.0 (-0.8463) 0.07907
  | .brazo2 => create_translation_matrix 0.0 (-0.81879) 0.0
  | .contenedor => create_translation_matrix (-0.17888) 0.83539 0.98371086
  | .tapa => create_translation_matrix (-0.03811) 0.0 0.0

/-- Embedding of the dictionary `transformaciones` (second.py lines 123-131):
absolute world pose of each part, composed along its parent chain with the
root-most relative transform leftmost. -/
noncomputable def transformaciones : Pieza → M4
  | .camion => posiciones .camion
  | .empujador => posiciones .camion * posiciones .empujador
  | .deslizadera => posiciones .camion * posiciones .deslizadera
  | .brazo1 => posiciones .camion * posiciones .deslizadera * posiciones .brazo1
  | .brazo2 =>
      posiciones .camion * posiciones .deslizadera * posiciones .brazo1 * posiciones .brazo2
  | .contenedor => posiciones .contenedor
  | .tapa => posiciones .contenedor * posiciones .tapa

/-- Embedding of `traslacion_inicial = pos_inicial_contenedor[:3, 3]`
(second.py line 74), for an arbitrary transform dictionary `lt`. -/
noncomputable def traslacion_inicial (lt : Pieza → M4) : Fin 3 → ℝ := fun i =>
  lt .contenedor i.castSucc 3

/-- Embedding of `traslacion_destino = traslacion_inicial + [0, 0, 1.0]`
(second.py line 75). -/
noncomputable def traslacion_destino (lt : Pieza → M4) : Fin 3 → ℝ := fun i =>
  traslacion_inicial lt i + ![0, 0, 1.0] i

/-- Embedding of the interpolation parameter `t = paso / (n_pasos - 1)`
(second.py line 78); the subtraction is on the integers, the division real. -/
noncomputable def t_param (n_pasos paso : ℕ) : ℝ := (paso : ℝ) / ((n_pasos - 1 : ℕ) : ℝ)

/-- Embedding of
`traslacion_actual = traslacion_inicial + t * (traslacion_destino - traslacion_inicial)`
(second.py line 79). -/
noncomputable def traslacion_actual (lt : Pieza → M4) (n_pasos paso : ℕ) : Fin 3 → ℝ := fun i =>
  traslacion_inicial lt i +
    t_param n_pasos paso * (traslacion_destino lt i - traslacion_inicial lt i)

/-- Embedding of `angulo_actual = t * np.radians(90)` (second.py line 82). -/
noncomputable def angulo_actual (n_pasos paso : ℕ) : ℝ :=
  t_param n_pasos paso * radians 90

/-- Embedding of
`transformacion_actual = matriz_traslacion @ matriz_rotacion`
(second.py lines 80-85): the per-step transform of the animated group. -/
noncomputable def transformacion_actual (lt : Pieza → M4) (n_pasos paso : ℕ) : M4 :=
  create_translation_matrix (traslacion_actual lt n_pasos paso 0)
      (traslacion_actual lt n_pasos paso 1) (traslacion_actual lt n_pasos paso 2) *
    create_rotation_matrix "z" (angulo_actual n_pasos paso)

/-- Per-step absolute poses applied to the two animated meshes: the container
copy gets `transformacion_actual`, the lid copy gets
`transformacion_actual @ pos_inicial_tapa` (second.py lines 87-91), where
`pos_inicial_tapa = lista_transformaciones["tapa"]` (line 72). -/
structure Frame where
  contenedor : M4
  tapa : M4

/-- Poses of the animation frame at step `paso` (second.py lines 78-91). -/
noncomputable def frame_at (lt : Pieza → M4) (n_pasos paso : ℕ) : Frame :=
  ⟨transformacion_actual lt n_pasos paso,
   transformacion_actual lt n_pasos paso * lt .tapa⟩

/-- Embedding of the loop of `mover_cubo` (second.py lines 64-93).  The body
of each iteration fails exactly when the divisor `n_pasos - 1` of line 78 is
zero (Python's `ZeroDivisionError`), the loop stopping at the first failure
with no frame produced; otherwise every iteration yields its frame. -/
noncomputable def mover_cubo (lt : Pieza → M4) (n_pasos : ℕ) :
    Except Unit (List Frame) :=
  (List.range n_pasos).mapM fun paso =>
    if n_pasos - 1 = 0 then Except.error () else Except.ok (frame_at lt n_pasos paso)

/-- Upper-left 3×3 block of a homogeneous transform. -/
def Rblock (T : M4) : Matrix (Fin 3) (Fin 3) ℝ :=
  Matrix.of fun i j => T i.castSucc j.castSucc

/-- Bottom row of a homogeneous transform is `[0, 0, 0, 1]`. -/
def bottom_row_ok (T : M4) : Prop :=
  T 3 0 = 0 ∧ T 3 1 = 0 ∧ T 3 2 = 0 ∧ T 3 3 = 1

/-- Spec invariant for transforms: the bottom row is `[0,0,0,1]` and the
upper-left block is orthonormal with determinant `+1` (a pure rotation; the
identity is the special case of angle zero). -/
def WellFormed (T : M4) : Prop :=
  bottom_row_ok T ∧ (Rblock T).transpose * Rblock T = 1 ∧ (Rblock T).det = 1

/-- Transforms the engine can produce: translations, rotations, and their
compositions. -/
inductive Produced : M4 → Prop
  | translation (tx ty tz : ℝ) : Produced (create_translation_matrix tx ty tz)
  | rotation (axis : String) (angle : ℝ) : Produced (create_rotation_matrix axis angle)
  | comp {A B : M4} : Produced A → Produced B → Produced (compose A B)

/-- Mesh geometry as an opaque transformable payload: a list of vertices. -/
abbrev Geometry := List (Fin 3 → ℝ)

/-- Applying a transform to a geometry value transforms every vertex, the way
`numpy-stl`'s `Mesh.transform` updates the vectors of a mesh. -/
def transform_geometry (T : M4) (g : Geometry) : Geometry :=
  g.map (apply_transform T)

/-- Heap of mutable mesh objects: Python object identities become addresses,
so that in-place mutation (`Mesh.transform`) and `deepcopy` are observable. -/
structure Heap where
  data : ℕ → Geometry
  next : ℕ

/-- Allocation of a fresh mesh object holding geometry `g`. -/
def Heap.alloc (h : Heap) (g : Geometry) : Heap × ℕ :=
  (⟨fun b => if b = h.next then g else h.data b, h.next + 1⟩, h.next)

/-- Embedding of `deepcopy(mesh)`: a fresh object with the same geometry as
the object at address `a`; the original is untouched. -/
def Heap.deepcopy (h : Heap) (a : ℕ) : Heap × ℕ :=
  h.alloc (h.data a)

/-- Embedding of `mesh.transform(T)`: in-place update of the object at
address `a` with its transformed geometry. -/
def mesh_transform (h : Heap) (a : ℕ) (T : M4) : Heap :=
  ⟨fun b => if b = a then transform_geometry T (h.data b) else h.data b, h.next⟩

/-- One iteration of the animation loop of `mover_cubo` (second.py lines
87-93): deep-copy the container mesh at `ac`, transform the copy in place by
the step transform, deep-copy the lid mesh at `at_`, transform that copy in
place by the step transform times the lid's stored initial pose, then hand
both transformed copies to `paint`.  Returns the updated heap and the pair of
emitted geometries. -/
noncomputable def paso_render (lt : Pieza → M4) (n_pasos paso : ℕ) (ac at_ : ℕ)
    (h : Heap) : Heap × (Geometry × Geometry) :=
  let hc := h.deepcopy ac
  let h2 := mesh_transform hc.1 hc.2 (transformacion_actual lt n_pasos paso)
  let ht := h2.deepcopy at_
  let h3 := mesh_transform ht.1 ht.2 (transformacion_actual lt n_pasos paso * lt .tapa)
  (h3, (h3.data hc.2, h3.data ht.2))

/-- The loop `for paso in range(n_pasos)` threaded through the heap,
collecting the geometry pair handed to `paint` at every step. -/
noncomputable def render_steps (lt : Pieza → M4) (n_pasos : ℕ) (ac at_ : ℕ) :
    List ℕ → Heap → Heap × List (Geometry × Geometry)
  | [], h => (h, [])
  | paso :: rest, h =>
      ((render_steps lt n_pasos ac at_ rest (paso_render lt n_pasos paso ac at_ h).1).1,
       (paso_render lt n_pasos paso ac at_ h).2 ::
         (render_steps lt n_pasos ac at_ rest (paso_render lt n_pasos paso ac at_ h).1).2)

/-- The heap-level rendering behaviour of `mover_cubo`: every step of
`range(n_pasos)` deep-copies, transforms and emits (second.py lines 77-93). -/
noncomputable def mover_cubo_render (lt : Pieza → M4) (n_pasos : ℕ) (ac at_ : ℕ)
    (h : Heap) : Heap × List (Geometry × Geometry) :=
  render_steps lt n_pasos ac at_ (List.range n_pasos) h

section EntryLemmas

/-- Entry view of a product of 4×4 matrices as the explicit four-term sum. -/
lemma mul4_apply (A B : M4) (i j : Fin 4) :
    (A * B) i j = A i 0 * B 0 j + A i 1 * B 1 j + A i 2 * B 2 j + A i 3 * B 3 j := by
  simp [Matrix.mul_apply, Fin.sum_univ_four]

/-- Product of two translation matrices is the translation by the sum. -/
lemma translation_mul (a b c d e f : ℝ) :
    create_translation_matrix a b c * create_translation_matrix d e f =
      create_translation_matrix (a + d) (b + e) (c + f) := by
  ext i j
  fin_cases i <;> fin_cases j <;>
    simp [create_translation_matrix, mul4_apply, Matrix.vecHead, Matrix.vecTail] <;>
    ring

/-- Rotation about `"x"` by angle zero is the identity matrix. -/
lemma rotation_x_zero : create_rotation_matrix "x" 0 = 1 := by
  ext i j
  fin_cases i <;> fin_cases j <;>
    simp [create_rotation_matrix, Matrix.one_apply, Matrix.vecHead, Matrix.vecTail]

/-- Rotation about `"y"` by angle zero is the identity matrix. -/
lemma rotation_y_zero : create_rotation_matrix "y" 0 = 1 := by
  ext i j
  fin_cases i <;> fin_cases j <;>
    simp [create_rotation_matrix, Matrix.one_apply, Matrix.vecHead, Matrix.vecTail]

/-- Rotation about `"z"` by angle zero is the identity matrix. -/
lemma rotation_z_zero : create_rotation_matrix "z" 0 = 1 := by
  ext i j
  fin_cases i <;> fin_cases j <;>
    simp [create_rotation_matrix, Matrix.one_apply, Matrix.vecHead, Matrix.vecTail]

/-- Rotation about an unnamed axis falls through every branch and returns the
untouched `np.identity(4)`. -/
lemma rotation_other (axis : String) (angle : ℝ)
    (hx : axis ≠ "x") (hy : axis ≠ "y") (hz : axis ≠ "z") :
    create_rotation_matrix axis angle = 1 := by
  simp [create_rotation_matrix, hx, hy, hz]

end EntryLemmas

/-- C2: pose resolution composes the chain of relative transforms with the
root outermost: the generic left-to-right product equals repeated `compose`
from the root down; for the three-part chain with relative translations
`(1,0,0)`, `(0,1,0)`, `(0,0,1)` the leaf's absolute transform maps the origin
to `(1,1,1)`; and `brazo2`'s absolute pose is the left-to-right product
chassis · ramp · arm1 · arm2 of the four relative transforms. -/
theorem claim2_chain_correctness :
    (∀ root mid leaf : M4, compose leaf (compose mid root) = root * mid * leaf) ∧
      apply_transform
          (create_translation_matrix 1 0 0 * create_translation_matrix 0 1 0 *
            create_translation_matrix 0 0 1) ![0, 0, 0] = ![1, 1, 1] ∧
      transformaciones .brazo2 =
        posiciones .camion * posiciones .deslizadera * posiciones .brazo1 *
          posiciones .brazo2 := by
  refine ⟨fun root mid leaf => rfl, ?_, rfl⟩
  rw [translation_mul, translation_mul]
  funext i
  fin_cases i <;>
    simp [apply_transform, create_translation_matrix, Matrix.vecHead, Matrix.vecTail,
      Fin.castSucc, Fin.castAdd, Fin.castLE]

/-- C4: the step transform of `mover_cubo` is
`compose(rotation("z", angulo), translation(traslacion))`, the rotation applied
first and the translation second, so the translation column of the resulting
matrix is exactly the interpolated translation, unaffected by the rotation
angle. -/
theorem claim4_rotate_then_translate (lt : Pieza → M4) (n_pasos paso : ℕ) :
    transformacion_actual lt n_pasos paso =
        compose (create_rotation_matrix "z" (angulo_actual n_pasos paso))
          (create_translation_matrix (traslacion_actual lt n_pasos paso 0)
            (traslacion_actual lt n_pasos paso 1) (traslacion_actual lt n_pasos paso 2)) ∧
      ∀ i : Fin 3,
        transformacion_actual lt n_pasos paso i.castSucc 3 =
          traslacion_actual lt n_pasos paso i := by
  refine ⟨rfl, fun i => ?_⟩
  fin_cases i <;>
    simp [transformacion_actual, mul4_apply, create_translation_matrix,
      create_rotation_matrix, Matrix.vecHead, Matrix.vecTail,
      Fin.castSucc, Fin.castAdd, Fin.castLE]

/-- C3: with at least two steps, the interpolation parameter is strictly
increasing, starts at `0`, ends at `1` and stays inside `[0,1]`; hence step 0
carries the plan's start translation with rotation angle `0` and the last step
carries the end translation with the full rotation angle `radians 90`. -/
theorem claim3_interpolation_endpoints (n : ℕ) (hn : 2 ≤ n) (lt : Pieza → M4) :
    (∀ i j : ℕ, i < j → j < n → t_param n i < t_param n j) ∧
      t_param n 0 = 0 ∧ t_param n (n - 1) = 1 ∧
      (∀ i : ℕ, i < n → 0 ≤ t_param n i ∧ t_param n i ≤ 1) ∧
      traslacion_actual lt n 0 = traslacion_inicial lt ∧
      angulo_actual n 0 = 0 ∧
      traslacion_actual lt n (n - 1) = traslacion_destino lt ∧
      angulo_actual n (n - 1) = radians 90 := by
  have hd : (0 : ℝ) < ((n - 1 : ℕ) : ℝ) := by
    have : 1 ≤ n - 1 := by omega
    exact_mod_cast Nat.lt_of_lt_of_le Nat.zero_lt_one this
  have hlast : t_param n (n - 1) = 1 := by
    unfold t_param
    exact div_self hd.ne'
  refine ⟨?_, by simp [t_param], hlast, ?_, ?_, by simp [angulo_actual, t_param], ?_, ?_⟩
  · intro i j hij hjn
    unfold t_param
    exact (div_lt_div_iff_of_pos_right hd).mpr (by exact_mod_cast hij)
  · intro i hin
    constructor
    · unfold t_param
      positivity
    · unfold t_param
      rw [div_le_one hd]
      have : i ≤ n - 1 := by omega
      exact_mod_cast this
  · funext i
    simp [traslacion_actual, t_param]
  · funext i
    simp only [traslacion_actual, hlast]
    ring
  · simp [angulo_actual, hlast]

/-- Witness for C3 at the concrete plan of the program: `n_pasos = 2` steps
over the `transformaciones` dictionary. -/
theorem claim3_witness :
    t_param 2 0 < t_param 2 1 ∧ t_param 2 0 = 0 ∧ t_param 2 1 = 1 ∧
      traslacion_actual transformaciones 2 0 = traslacion_inicial transformaciones ∧
      angulo_actual 2 0 = 0 ∧
      traslacion_actual transformaciones 2 1 = traslacion_destino transformaciones ∧
      angulo_actual 2 1 = radians 90 :=
  ⟨(claim3_interpolation_endpoints 2 (by norm_num) transformaciones).1 0 1
      (by norm_num) (by norm_num),
   (claim3_interpolation_endpoints 2 (by norm_num) transformaciones).2.1,
   (claim3_interpolation_endpoints 2 (by norm_num) transformaciones).2.2.1,
   (claim3_interpolation_endpoints 2 (by norm_num) transformaciones).2.2.2.2.1,
   (claim3_interpolation_endpoints 2 (by norm_num) transformaciones).2.2.2.2.2.1,
   (claim3_interpolation_endpoints 2 (by norm_num) transformaciones).2.2.2.2.2.2.1,
   (claim3_interpolation_endpoints 2 (by norm_num) transformaciones).2.2.2.2.2.2.2⟩

/-- Mapping a list through an everywhere-successful `Except` body collects
exactly the mapped list. -/
lemma mapM_ok_list {α β : Type} (l : List α) (g : α → β) :
    (l.mapM fun a => (Except.ok (g a) : Except Unit β)) = Except.ok (l.map g) := by
  rw [← List.mapM'_eq_mapM]
  induction l with
  | nil => rfl
  | cons a l ih =>
      simp only [List.mapM'_cons, ih]
      rfl

/-- C5: with `n_pasos = 1` the loop of `mover_cubo` fails at its very first
step, before any frame is produced (the divisor `n_pasos - 1` is zero); with
`n_pasos = n ≥ 2` no error occurs and exactly `n` frames are produced. -/
theorem claim5_invalid_single_step (lt : Pieza → M4) (n : ℕ) (hn : 2 ≤ n) :
    mover_cubo lt 1 = Except.error () ∧
      mover_cubo lt n = Except.ok ((List.range n).map (frame_at lt n)) ∧
      ((List.range n).map (frame_at lt n)).length = n := by
  refine ⟨rfl, ?_, by simp⟩
  unfold mover_cubo
  have hne : ¬n - 1 = 0 := by omega
  simp only [if_neg hne]
  exact mapM_ok_list _ _

/-- Witness for C5 at the concrete plan sizes `1` and `2` over the program's
`transformaciones` dictionary. -/
theorem claim5_witness :
    mover_cubo transformaciones 1 = Except.error () ∧
      mover_cubo transformaciones 2 =
        Except.ok ((List.range 2).map (frame_at transformaciones 2)) ∧
      ((List.range 2).map (frame_at transformaciones 2)).length = 2 :=
  claim5_invalid_single_step transformaciones 2 (by norm_num)

/-- Step 0 of the program's run (`mover_cubo(piezas, transformaciones)` with
the default `n_pasos = 100`): the interpolation parameter is `0`, the rotation
is by angle `0`, so the step transform is exactly the container's base
translation. -/
lemma step0_transform :
    transformacion_actual transformaciones 100 0 =
      create_translation_matrix (-0.17888) 0.83539 0.98371086 := by
  have ha : angulo_actual 100 0 = 0 := by simp [angulo_actual, t_param]
  unfold transformacion_actual
  rw [ha, rotation_z_zero, mul_one]
  have h0 : ∀ i : Fin 3,
      traslacion_actual transformaciones 100 0 i = traslacion_inicial transformaciones i := by
    intro i
    simp [traslacion_actual, t_param]
  rw [h0 0, h0 1, h0 2]
  have hi : ∀ i : Fin 3,
      traslacion_inicial transformaciones i =
        create_translation_matrix (-0.17888) 0.83539 0.98371086 i.castSucc 3 := by
    intro i
    simp [traslacion_inicial, transformaciones, posiciones]
  rw [hi 0, hi 1, hi 2]
  norm_num [create_translation_matrix, Matrix.vecHead, Matrix.vecTail,
    Fin.castSucc, Fin.castAdd, Fin.castLE]

/-- C1: at step 0 of the program's own animation the code drives the lid by
`transformacion_actual @ pos_inicial_tapa`, i.e. the step transform composed
with the lid's absolute base pose `transformaciones["tapa"]`; this differs
from the claimed `stepTransform` composed with the lid's authored relative
offset `posiciones["tapa"]`, because the container's base translation is
applied twice, so the authored relative attachment is not preserved. -/
theorem claim1_lid_double_offset :
    (frame_at transformaciones 100 0).tapa =
        compose (transformaciones .tapa) (transformacion_actual transformaciones 100 0) ∧
      (frame_at transformaciones 100 0).tapa ≠
        compose (posiciones .tapa) (transformacion_actual transformaciones 100 0) := by
  refine ⟨rfl, ?_⟩
  intro h
  have h23 : (frame_at transformaciones 100 0).tapa 2 3 =
      (compose (posiciones .tapa) (transformacion_actual transformaciones 100 0)) 2 3 := by
    rw [h]
  simp only [frame_at, compose, step0_transform, transformaciones, posiciones,
    translation_mul] at h23
  norm_num [create_translation_matrix, Matrix.vecHead, Matrix.vecTail] at h23

/-- Branch view of `create_rotation_matrix` at axis `"x"`. -/
lemma rot_x_eq (angle : ℝ) :
    create_rotation_matrix "x" angle =
      !![1, 0, 0, 0;
         0, Real.cos angle, -Real.sin angle, 0;
         0, Real.sin angle, Real.cos angle, 0;
         0, 0, 0, 1] := by
  simp [create_rotation_matrix]

/-- Branch view of `create_rotation_matrix` at axis `"y"`. -/
lemma rot_y_eq (angle : ℝ) :
    create_rotation_matrix "y" angle =
      !![Real.cos angle, 0, Real.sin angle, 0;
         0, 1, 0, 0;
         -Real.sin angle, 0, Real.cos angle, 0;
         0, 0, 0, 1] := by
  simp [create_rotation_matrix]

/-- Branch view of `create_rotation_matrix` at axis `"z"`. -/
lemma rot_z_eq (angle : ℝ) :
    create_rotation_matrix "z" angle =
      !![Real.cos angle, -Real.sin angle, 0, 0;
         Real.sin angle, Real.cos angle, 0, 0;
         0, 0, 1, 0;
         0, 0, 0, 1] := by
  simp [create_rotation_matrix]

/-- Rotation block of a translation matrix is the identity. -/
lemma Rblock_translation (tx ty tz : ℝ) :
    Rblock (create_translation_matrix tx ty tz) = 1 := by
  ext i j
  fin_cases i <;> fin_cases j <;>
    simp [Rblock, create_translation_matrix, Matrix.one_apply,
      Matrix.vecHead, Matrix.vecTail, Fin.castSucc, Fin.castAdd, Fin.castLE]

/-- Rotation block of the identity transform is the identity. -/
lemma Rblock_one : Rblock (1 : M4) = 1 := by
  ext i j
  fin_cases i <;> fin_cases j <;>
    simp [Rblock, Matrix.one_apply, Fin.castSucc, Fin.castAdd, Fin.castLE]

/-- Rotation block at axis `"x"`. -/
lemma Rblock_rot_x (angle : ℝ) :
    Rblock (create_rotation_matrix "x" angle) =
      !![1, 0, 0;
         0, Real.cos angle, -Real.sin angle;
         0, Real.sin angle, Real.cos angle] := by
  rw [rot_x_eq]
  ext i j
  fin_cases i <;> fin_cases j <;>
    simp [Rblock, Matrix.vecHead, Matrix.vecTail, Fin.castSucc, Fin.castAdd, Fin.castLE]

/-- Rotation block at axis `"y"`. -/
lemma Rblock_rot_y (angle : ℝ) :
    Rblock (create_rotation_matrix "y" angle) =
      !![Real.cos angle, 0, Real.sin angle;
         0, 1, 0;
         -Real.sin angle, 0, Real.cos angle] := by
  rw [rot_y_eq]
  ext i j
  fin_cases i <;> fin_cases j <;>
    simp [Rblock, Matrix.vecHead, Matrix.vecTail, Fin.castSucc, Fin.castAdd, Fin.castLE]

/-- Rotation block at axis `"z"`. -/
lemma Rblock_rot_z (angle : ℝ) :
    Rblock (create_rotation_matrix "z" angle) =
      !![Real.cos angle, -Real.sin angle, 0;
         Real.sin angle, Real.cos angle, 0;
         0, 0, 1] := by
  rw [rot_z_eq]
  ext i j
  fin_cases i <;> fin_cases j <;>
    simp [Rblock, Matrix.vecHead, Matrix.vecTail, Fin.castSucc, Fin.castAdd, Fin.castLE]

/-- The well-formedness invariant holds for the identity transform. -/
lemma wf_one : WellFormed (1 : M4) := by
  refine ⟨⟨?_, ?_, ?_, ?_⟩, ?_, ?_⟩ <;>
    simp [Rblock_one, Matrix.one_apply]

/-- The well-formedness invariant holds for every translation. -/
lemma wf_translation (tx ty tz : ℝ) :
    WellFormed (create_translation_matrix tx ty tz) := by
  refine ⟨?_, ?_, ?_⟩
  · refine ⟨?_, ?_, ?_, ?_⟩ <;>
      simp [create_translation_matrix, Matrix.vecHead, Matrix.vecTail]
  · rw [Rblock_translation, Matrix.transpose_one, Matrix.one_mul]
  · rw [Rblock_translation, Matrix.det_one]

/-- The well-formedness invariant holds for every rotation about `"x"`. -/
lemma wf_rot_x (angle : ℝ) : WellFormed (create_rotation_matrix "x" angle) := by
  refine ⟨?_, ?_, ?_⟩
  · rw [rot_x_eq]
    refine ⟨?_, ?_, ?_, ?_⟩ <;> simp [Matrix.vecHead, Matrix.vecTail]
  · rw [Rblock_rot_x]
    ext i j
    fin_cases i <;> fin_cases j <;>
      simp [Matrix.mul_apply, Fin.sum_univ_three, Matrix.transpose_apply,
        Matrix.one_apply, Matrix.vecHead, Matrix.vecTail] <;>
      (first | ring1 | linear_combination Real.sin_sq_add_cos_sq angle)
  · rw [Rblock_rot_x, Matrix.det_fin_three]
    simp [Matrix.vecHead, Matrix.vecTail]
    linear_combination Real.sin_sq_add_cos_sq angle

/-- The well-formedness invariant holds for every rotation about `"y"`. -/
lemma wf_rot_y (angle : ℝ) : WellFormed (create_rotation_matrix "y" angle) := by
  refine ⟨?_, ?_, ?_⟩
  · rw [rot_y_eq]
    refine ⟨?_, ?_, ?_, ?_⟩ <;> simp [Matrix.vecHead, Matrix.vecTail]
  · rw [Rblock_rot_y]
    ext i j
    fin_cases i <;> fin_cases j <;>
      simp [Matrix.mul_apply, Fin.sum_univ_three, Matrix.transpose_apply,
        Matrix.one_apply, Matrix.vecHead, Matrix.vecTail] <;>
      (first | ring1 | linear_combination Real.sin_sq_add_cos_sq angle)
  · rw [Rblock_rot_y, Matrix.det_fin_three]
    simp [Matrix.vecHead, Matrix.vecTail]
    linear_combination Real.sin_sq_add_cos_sq angle

/-- The well-formedness invariant holds for every rotation about `"z"`. -/
lemma wf_rot_z (angle : ℝ) : WellFormed (create_rotation_matrix "z" angle) := by
  refine ⟨?_, ?_, ?_⟩
  · rw [rot_z_eq]
    refine ⟨?_, ?_, ?_, ?_⟩ <;> simp [Matrix.vecHead, Matrix.vecTail]
  · rw [Rblock_rot_z]
    ext i j
    fin_cases i <;> fin_cases j <;>
      simp [Matrix.mul_apply, Fin.sum_univ_three, Matrix.transpose_apply,
        Matrix.one_apply, Matrix.vecHead, Matrix.vecTail] <;>
      (first | ring1 | linear_combination Real.sin_sq_add_cos_sq angle)
  · rw [Rblock_rot_z, Matrix.det_fin_three]
    simp [Matrix.vecHead, Matrix.vecTail]
    linear_combination Real.sin_sq_add_cos_sq angle

/-- The well-formedness invariant holds for every rotation, whatever the axis
string. -/
lemma wf_rotation (axis : String) (angle : ℝ) :
    WellFormed (create_rotation_matrix axis angle) := by
  by_cases hx : axis = "x"
  · subst hx; exact wf_rot_x angle
  by_cases hy : axis = "y"
  · subst hy; exact wf_rot_y angle
  by_cases hz : axis = "z"
  · subst hz; exact wf_rot_z angle
  rw [rotation_other axis angle hx hy hz]
  exact wf_one

/-- Bottom rows multiply to a bottom row. -/
lemma bottom_row_mul {A B : M4} (hA : bottom_row_ok A) (hB : bottom_row_ok B) :
    bottom_row_ok (A * B) := by
  obtain ⟨a0, a1, a2, a3⟩ := hA
  obtain ⟨b0, b1, b2, b3⟩ := hB
  refine ⟨?_, ?_, ?_, ?_⟩ <;>
    rw [mul4_apply] <;>
    simp [a0, a1, a2, a3, b0, b1, b2, b3]

/-- With a bottom row of `[0,0,0,1]` on the right factor, the rotation block
of a product is the product of the rotation blocks. -/
lemma Rblock_mul {A B : M4} (hB : bottom_row_ok B) :
    Rblock (A * B) = Rblock A * Rblock B := by
  obtain ⟨b0, b1, b2, _⟩ := hB
  ext i j
  fin_cases i <;> fin_cases j <;>
    simp [Rblock, Matrix.mul_apply, Fin.sum_univ_three, Fin.sum_univ_four,
      Fin.castSucc, Fin.castAdd, Fin.castLE, b0, b1, b2]

/-- The well-formedness invariant is preserved by composition. -/
lemma wf_compose {A B : M4} (hA : WellFormed A) (hB : WellFormed B) :
    WellFormed (compose A B) := by
  obtain ⟨hAb, hAo, hAd⟩ := hA
  obtain ⟨hBb, hBo, hBd⟩ := hB
  have hR : Rblock (B * A) = Rblock B * Rblock A := Rblock_mul hAb
  refine ⟨bottom_row_mul hBb hAb, ?_, ?_⟩
  · show (Rblock (B * A)).transpose * Rblock (B * A) = 1
    rw [hR, Matrix.transpose_mul, Matrix.mul_assoc, ← Matrix.mul_assoc (Rblock B).transpose,
      hBo, Matrix.one_mul, hAo]
  · show (Rblock (B * A)).det = 1
    rw [hR, Matrix.det_mul, hBd, hAd, mul_one]

/-- C6: every transform the engine produces — any output of
`create_translation_matrix`, `create_rotation_matrix`, or any composition of
such outputs — has bottom row `[0,0,0,1]` and a pure-rotation upper-left
block (orthonormal with determinant `+1`, the identity included); no shear or
scale is ever introduced. -/
theorem claim6_orthonormal_invariant : ∀ T : M4, Produced T → WellFormed T := by
  intro T h
  induction h with
  | translation tx ty tz => exact wf_translation tx ty tz
  | rotation axis angle => exact wf_rotation axis angle
  | comp _ _ ihA ihB => exact wf_compose ihA ihB

/-- Witness for C6 on a concrete engine product: a translation composed with
a rotation. -/
theorem claim6_witness :
    WellFormed (compose (create_translation_matrix 1 2 3) (create_rotation_matrix "z" 0)) :=
  claim6_orthonormal_invariant _
    (Produced.comp (Produced.translation 1 2 3) (Produced.rotation "z" 0))

/-- C7: the identity transform is a two-sided neutral element for `compose`,
and `rotation(axis, 0)` is exactly the identity for each axis in x, y, z. -/
theorem claim7_identity_neutral :
    (∀ T : M4, compose 1 T = T ∧ compose T 1 = T) ∧
      create_rotation_matrix "x" 0 = 1 ∧
      create_rotation_matrix "y" 0 = 1 ∧
      create_rotation_matrix "z" 0 = 1 := by
  refine ⟨fun T => ⟨?_, ?_⟩, rotation_x_zero, rotation_y_zero, rotation_z_zero⟩ <;>
    simp [compose]

/-- C8: composition of transforms is associative, with exact equality over the
exact real arithmetic of the embedding. -/
theorem claim8_compose_assoc :
    ∀ A B C : M4, compose (compose A B) C = compose A (compose B C) := by
  intro A B C
  simp [compose, Matrix.mul_assoc]

/-- C10: `create_rotation_matrix` is total over every string axis: for any axis
other than `"x"`, `"y"`, `"z"` it silently returns the identity transform,
for every angle. -/
theorem claim10_unknown_axis_identity (axis : String) (angle : ℝ)
    (hx : axis ≠ "x") (hy : axis ≠ "y") (hz : axis ≠ "z") :
    create_rotation_matrix axis angle = 1 :=
  rotation_other axis angle hx hy hz

/-- Witness for C10 at the concrete axis `"w"` and angle `5`. -/
theorem claim10_witness : create_rotation_matrix "w" 5 = 1 :=
  claim10_unknown_axis_identity "w" 5 (by decide) (by decide) (by decide)

/-- One loop iteration grows the heap by its two fresh copies, leaves every
previously allocated object untouched, and emits exactly the step transform
applied to the original container and lid geometries. -/
lemma paso_render_spec (lt : Pieza → M4) (n_pasos paso : ℕ) (ac at_ : ℕ) (h : Heap)
    (_hac : ac < h.next) (hat : at_ < h.next) :
    (paso_render lt n_pasos paso ac at_ h).1.next = h.next + 2 ∧
      (∀ a, a < h.next → (paso_render lt n_pasos paso ac at_ h).1.data a = h.data a) ∧
      (paso_render lt n_pasos paso ac at_ h).2 =
        (transform_geometry (transformacion_actual lt n_pasos paso) (h.data ac),
         transform_geometry (transformacion_actual lt n_pasos paso * lt .tapa) (h.data at_)) := by
  have hne1 : h.next ≠ h.next + 1 := by omega
  have hne2 : h.next + 1 ≠ h.next := by omega
  have hat1 : at_ ≠ h.next := by omega
  refine ⟨rfl, ?_, ?_⟩
  · intro a ha
    have h1 : a ≠ h.next + 1 := by omega
    have h2 : a ≠ h.next := by omega
    simp [paso_render, mesh_transform, Heap.deepcopy, Heap.alloc, h1, h2]
  · simp [paso_render, mesh_transform, Heap.deepcopy, Heap.alloc, hne1, hne2, hat1]

/-- Running the loop over any list of step indices preserves every
previously allocated object and emits, at every step, the transforms of the
pristine original geometries. -/
lemma render_steps_spec (lt : Pieza → M4) (n_pasos : ℕ) (ac at_ : ℕ) (ps : List ℕ) :
    ∀ h : Heap, ac < h.next → at_ < h.next →
      (render_steps lt n_pasos ac at_ ps h).1.next = h.next + 2 * ps.length ∧
        (∀ a, a < h.next → (render_steps lt n_pasos ac at_ ps h).1.data a = h.data a) ∧
        (render_steps lt n_pasos ac at_ ps h).2 =
          ps.map fun paso =>
            (transform_geometry (transformacion_actual lt n_pasos paso) (h.data ac),
             transform_geometry (transformacion_actual lt n_pasos paso * lt .tapa)
               (h.data at_)) := by
  induction ps with
  | nil =>
      intro h hac hat
      exact ⟨by simp [render_steps], fun a ha => rfl, by simp [render_steps]⟩
  | cons paso rest ih =>
      intro h hac hat
      obtain ⟨hn, hd, he⟩ := paso_render_spec lt n_pasos paso ac at_ h hac hat
      have hac1 : ac < (paso_render lt n_pasos paso ac at_ h).1.next := by omega
      have hat1 : at_ < (paso_render lt n_pasos paso ac at_ h).1.next := by omega
      obtain ⟨ihn, ihd, ihe⟩ := ih (paso_render lt n_pasos paso ac at_ h).1 hac1 hat1
      refine ⟨?_, ?_, ?_⟩
      · simp only [render_steps, List.length_cons]
        rw [ihn, hn]
        ring
      · intro a ha
        simp only [render_steps]
        rw [ihd a (by omega)]
        exact hd a ha
      · simp only [render_steps, List.map_cons]
        rw [ihe, hd ac hac, hd at_ hat, he]

/-- C9: the animation loop never mutates the stored original geometry: after
running all `n_pasos` steps, every object present in the heap before the loop
(the registered meshes among them) still holds its original geometry, and the
geometry pair emitted at every step is the step transform applied to a fresh
copy of the pristine originals — so the same original is re-transformable at
every subsequent frame.  The stored transform dictionary `lt` is passed
read-only and appears unchanged in every emitted frame. -/
theorem claim9_copy_on_transform (lt : Pieza → M4) (n_pasos : ℕ) (ac at_ : ℕ)
    (h : Heap) (hac : ac < h.next) (hat : at_ < h.next) :
    (∀ a, a < h.next → (mover_cubo_render lt n_pasos ac at_ h).1.data a = h.data a) ∧
      (mover_cubo_render lt n_pasos ac at_ h).2 =
        (List.range n_pasos).map fun paso =>
          (transform_geometry (transformacion_actual lt n_pasos paso) (h.data ac),
           transform_geometry (transformacion_actual lt n_pasos paso * lt .tapa)
             (h.data at_)) := by
  obtain ⟨-, hd, he⟩ :=
    render_steps_spec lt n_pasos ac at_ (List.range n_pasos) h hac hat
  exact ⟨hd, he⟩

/-- Witness for C9: a two-object heap (container at address 0, lid at
address 1, one vertex each) run for one step. -/
theorem claim9_witness :
    (mover_cubo_render transformaciones 1 0 1 ⟨fun _ => [fun _ => 0], 2⟩).1.data 0 =
        [fun _ => 0] ∧
      (mover_cubo_render transformaciones 1 0 1 ⟨fun _ => [fun _ => 0], 2⟩).2 =
        (List.range 1).map fun paso =>
          (transform_geometry (transformacion_actual transformaciones 1 paso)
              [fun _ => 0],
           transform_geometry
              (transformacion_actual transformaciones 1 paso * transformaciones .tapa)
              [fun _ => 0]) :=
  ⟨(claim9_copy_on_transform transformaciones 1 0 1 ⟨fun _ => [fun _ => 0], 2⟩
      (by decide) (by decide)).1 0 (by decide),
   (claim9_copy_on_transform transformaciones 1 0 1 ⟨fun _ => [fun _ => 0], 2⟩
      (by decide) (by decide)).2⟩

end Proyecto
